import Mathlib

/-!
Shallow embedding of the WebRTC call-session manager
(`src/backend/src/services/webrtc/webrtcService.js` and the socket-level
permission checks of `src/backend/src/websocket/webrtcHandler.js`).

JavaScript `Map`s and plain objects used as string-keyed dictionaries are
modelled as insertion-ordered association lists: `obj[k] = v` / `map.set`
replaces the value in place when the key is present and appends otherwise;
`map.delete` removes the key; `Object.entries` iterates in insertion order.
`Date.now()` style timestamps are threaded in as an explicit `now : Nat`
parameter.  Results of the form `{success, call | error}` are modelled as
`Except String`.
-/

namespace WebRTC

inductive ConnStatus where
  | pending
  | connected
  | disconnected
deriving DecidableEq

inductive CallStatus where
  | initiating
  | active
  | ended
deriving DecidableEq

inductive RecStatus where
  | recording
  | completed
deriving DecidableEq

/-- A recording attached to a call (`call.recording` object in `startRecording`). -/
structure RecordingSession where
  id : String
  path : String
  status : RecStatus
  startTime : Nat
  endTime : Option Nat
  size : Nat
deriving DecidableEq

/-- A relayed signaling message (`message` object in `handleSignaling`). -/
structure SigMessage where
  type : String
  userId : String
  payload : String
  timestamp : Nat
deriving DecidableEq

/-- The per-call state (`call` object built in `initiateCall`). -/
structure Call where
  id : String
  initiatorId : String
  participants : List String
  type : String
  title : String
  status : CallStatus
  startTime : Nat
  endTime : Option Nat
  duration : Int
  recording : Option RecordingSession
  messages : List SigMessage
  connectionStatus : List (String × ConnStatus)
deriving DecidableEq

/-- The snapshot pushed to `call_history.json` by `saveCallToHistory`. -/
structure CallHistoryRecord where
  id : String
  initiatorId : String
  participants : List String
  type : String
  title : String
  startTime : Nat
  endTime : Option Nat
  duration : Int
  recording : Option RecordingSession
  participantCount : Nat
  status : CallStatus
deriving DecidableEq

/-- The mutable state of the `WebRTCService` singleton: the `activeCalls` map,
the `userConnections` map (userId to socketId), and the persisted history file. -/
structure ServiceState where
  activeCalls : List (String × Call)
  userConnections : List (String × String)
  history : List CallHistoryRecord
deriving DecidableEq

/-- Lookup in an insertion-ordered association list (JS `map.get` / `obj[k]`). -/
def alGet {β : Type} (m : List (String × β)) (k : String) : Option β :=
  match m with
  | [] => none
  | (k', v) :: rest => if k' = k then some v else alGet rest k

/-- Key-membership test (JS `k in obj` / `map.has`). -/
def alHas {β : Type} (m : List (String × β)) (k : String) : Bool :=
  match m with
  | [] => false
  | (k', _) :: rest => if k' = k then true else alHas rest k

/-- Insert-or-replace preserving insertion order (JS `obj[k] = v` / `map.set`). -/
def alSet {β : Type} (m : List (String × β)) (k : String) (v : β) : List (String × β) :=
  if alHas m k then m.map (fun p => if p.1 = k then (k, v) else p) else m ++ [(k, v)]

/-- Key removal (JS `map.delete` / `delete obj[k]`). -/
def alErase {β : Type} (m : List (String × β)) (k : String) : List (String × β) :=
  m.filter (fun p => p.1 ≠ k)

/-- `WebRTCService.initiateCall`: builds the call object (only the invited
`participants` receive a `pending` entry in `connectionStatus`), stores it in
`activeCalls`, and always returns `{success: true, call}`. -/
def initiateCall (s : ServiceState) (now : Nat) (callId initiatorId : String)
    (participants : List String) (callType : String) (title : Option String) :
    ServiceState × Except String Call :=
  let call : Call := {
    id := callId
    initiatorId := initiatorId
    participants := participants
    type := callType
    title := title.getD "Call"
    status := CallStatus.initiating
    startTime := now
    endTime := none
    duration := 0
    recording := none
    messages := []
    connectionStatus := participants.foldl (fun m p => alSet m p ConnStatus.pending) [] }
  ({ s with activeCalls := alSet s.activeCalls callId call }, Except.ok call)

/-- `WebRTCService.saveCallToHistory`: the snapshot object pushed onto the
history array (the `recording` field is copied as-is, whatever its status). -/
def mkHistoryRecord (call : Call) : CallHistoryRecord :=
  { id := call.id
    initiatorId := call.initiatorId
    participants := call.participants
    type := call.type
    title := call.title
    startTime := call.startTime
    endTime := call.endTime
    duration := call.duration
    recording := call.recording
    participantCount := call.participants.length
    status := call.status }

/-- `saveCallToHistory` retention: push then keep only the last 100 records
(`history.slice(-100)`). -/
def pushHistory (h : List CallHistoryRecord) (r : CallHistoryRecord) :
    List CallHistoryRecord :=
  let h' := h ++ [r]
  if h'.length > 100 then h'.drop (h'.length - 100) else h'

/-- `WebRTCService.endCall`: marks the call ended, stamps `endTime` and
`duration`, saves the history snapshot, removes the call from `activeCalls`,
and deletes every participant's `userConnections` entry.  The recording, if
any, is left untouched. -/
def endCall (s : ServiceState) (now : Nat) (callId : String) :
    ServiceState × Except String Call :=
  match alGet s.activeCalls callId with
  | none => (s, Except.error "Call not found")
  | some call =>
    let endedCall : Call := { call with
      status := CallStatus.ended
      endTime := some now
      duration := (now : Int) - (call.startTime : Int) }
    let s' : ServiceState := {
      activeCalls := alErase s.activeCalls callId
      userConnections :=
        endedCall.participants.foldl (fun m p => alErase m p) s.userConnections
      history := pushHistory s.history (mkHistoryRecord endedCall) }
    (s', Except.ok endedCall)

/-- `WebRTCService.joinCall`: rejects unknown calls and uninvited users, marks
the user connected, records the socket in `userConnections`, and activates the
call when every invited participant (the initiator is not consulted) is
connected while the call is still `initiating`. -/
def joinCall (s : ServiceState) (now : Nat) (callId userId socketId : String) :
    ServiceState × Except String (Call × Nat) :=
  match alGet s.activeCalls callId with
  | none => (s, Except.error "Call not found")
  | some call =>
    if userId ∉ call.participants ∧ call.initiatorId ≠ userId then
      (s, Except.error "User not invited to this call")
    else
      let cs := alSet call.connectionStatus userId ConnStatus.connected
      let call' : Call :=
        if (∀ p ∈ call.participants, alGet cs p = some ConnStatus.connected) ∧
            call.status = CallStatus.initiating then
          { call with connectionStatus := cs, status := CallStatus.active, startTime := now }
        else
          { call with connectionStatus := cs }
      let s' : ServiceState := { s with
        activeCalls := alSet s.activeCalls callId call'
        userConnections := alSet s.userConnections userId socketId }
      (s', Except.ok (call', (cs.filter (fun p => p.2 = ConnStatus.connected)).length))

/-- `WebRTCService.leaveCall`: marks the user disconnected (no invitation
check), drops the socket mapping, and auto-ends the call when nobody — or only
the initiator — remains connected. -/
def leaveCall (s : ServiceState) (now : Nat) (callId userId : String) :
    ServiceState × Except String (Call × Nat) :=
  match alGet s.activeCalls callId with
  | none => (s, Except.error "Call not found")
  | some call =>
    let cs := alSet call.connectionStatus userId ConnStatus.disconnected
    let call1 : Call := { call with connectionStatus := cs }
    let s1 : ServiceState := { s with
      activeCalls := alSet s.activeCalls callId call1
      userConnections := alErase s.userConnections userId }
    let connectedUsers :=
      (cs.filter (fun p => p.2 = ConnStatus.connected)).map Prod.fst
    if connectedUsers.length = 0 ∨
        (connectedUsers.length = 1 ∧ connectedUsers.headD "" = call.initiatorId) then
      match endCall s1 now callId with
      | (s2, Except.ok endedCall) => (s2, Except.ok (endedCall, connectedUsers.length))
      | (s2, Except.error _) => (s2, Except.ok (call1, connectedUsers.length))
    else
      (s1, Except.ok (call1, connectedUsers.length))

/-- `WebRTCService.startRecording`: refuses while a recording is in progress,
otherwise attaches a fresh `RecordingSession` in status `recording`. -/
def startRecording (s : ServiceState) (now : Nat) (callId : String) :
    ServiceState × Except String RecordingSession :=
  match alGet s.activeCalls callId with
  | none => (s, Except.error "Call not found")
  | some call =>
    if call.recording.map RecordingSession.status = some RecStatus.recording then
      (s, Except.error "Call is already being recorded")
    else
      let recId := callId ++ "_" ++ toString now
      let r : RecordingSession := {
        id := recId
        path := recId ++ ".webm"
        status := RecStatus.recording
        startTime := now
        endTime := none
        size := 0 }
      ({ s with activeCalls := alSet s.activeCalls callId ({ call with recording := some r }) },
       Except.ok r)

/-- `WebRTCService.stopRecording`: requires an in-progress recording, marks it
completed and stamps its end time; `fileSize` stands for the `fs.statSync`
result (`none` when the file is missing, leaving `size` unchanged). -/
def stopRecording (s : ServiceState) (now : Nat) (callId : String)
    (fileSize : Option Nat) : ServiceState × Except String RecordingSession :=
  match alGet s.activeCalls callId with
  | none => (s, Except.error "Call not found")
  | some call =>
    match call.recording with
    | none => (s, Except.error "No active recording found")
    | some r =>
      if r.status ≠ RecStatus.recording then
        (s, Except.error "No active recording found")
      else
        let r' : RecordingSession := { r with
          status := RecStatus.completed
          endTime := some now
          size := fileSize.getD r.size }
        ({ s with activeCalls := alSet s.activeCalls callId ({ call with recording := some r' }) },
         Except.ok r')

/-- `WebRTCService.handleSignaling`: looks the call up and appends the message
to `call.messages`; there is no invitation check on the sender. -/
def handleSignaling (s : ServiceState) (now : Nat)
    (callId sigType userId payload : String) :
    ServiceState × Except String SigMessage :=
  match alGet s.activeCalls callId with
  | none => (s, Except.error "Call not found")
  | some call =>
    let msg : SigMessage := {
      type := sigType
      userId := userId
      payload := payload
      timestamp := now }
    let call' : Call := { call with messages := call.messages ++ [msg] }
    ({ s with activeCalls := alSet s.activeCalls callId call' }, Except.ok msg)

/-- Where the `webrtc:signal` socket handler forwards a successfully relayed
message: to the target user's room, or to the whole call room. -/
inductive RelayTarget where
  | toUser (userId : String)
  | toRoom (callId : String)
deriving DecidableEq

/-- The `webrtc:signal` handler in `webrtcHandler.js`: relays to
`user_<targetUserId>` when a target is named, else to the call's room, but
only when `handleSignaling` succeeded. -/
def handleSignalEvent (s : ServiceState) (now : Nat) (callId sigType : String)
    (targetUserId : Option String) (payload userId : String) :
    ServiceState × Option RelayTarget :=
  match handleSignaling s now callId sigType userId payload with
  | (s', Except.ok _) =>
    (s', some (match targetUserId with
               | some t => RelayTarget.toUser t
               | none => RelayTarget.toRoom callId))
  | (s', Except.error _) => (s', none)

/-- The `call:end` socket handler: only the initiator may end the call. -/
def handleEndEvent (s : ServiceState) (now : Nat) (callId userId : String) :
    ServiceState × Except String Call :=
  match alGet s.activeCalls callId with
  | none => (s, Except.error "Call not found")
  | some call =>
    if call.initiatorId ≠ userId then
      (s, Except.error "Only call initiator can end the call")
    else
      endCall s now callId

/-- The `call:start-recording` socket handler: initiator-only. -/
def handleStartRecordingEvent (s : ServiceState) (now : Nat)
    (callId userId : String) : ServiceState × Except String RecordingSession :=
  match alGet s.activeCalls callId with
  | none => (s, Except.error "Call not found")
  | some call =>
    if call.initiatorId ≠ userId then
      (s, Except.error "Only call initiator can start recording")
    else
      startRecording s now callId

/-- The `call:stop-recording` socket handler: initiator-only. -/
def handleStopRecordingEvent (s : ServiceState) (now : Nat)
    (callId userId : String) (fileSize : Option Nat) :
    ServiceState × Except String RecordingSession :=
  match alGet s.activeCalls callId with
  | none => (s, Except.error "Call not found")
  | some call =>
    if call.initiatorId ≠ userId then
      (s, Except.error "Only call initiator can stop recording")
    else
      stopRecording s now callId fileSize

/-- Whether an `Except` result is a success (`{success: true}` in the JS). -/
def exceptOk {ε α : Type} : Except ε α → Bool
  | Except.ok _ => true
  | Except.error _ => false

/-- The freshly constructed service state (empty maps, empty history file). -/
def emptyState : ServiceState :=
  { activeCalls := [], userConnections := [], history := [] }

/-- Scenario: `initiateCall` by `A` with participants `[B, C]` at time 0. -/
def exInitABC : ServiceState :=
  (initiateCall emptyState 0 "c" "A" ["B", "C"] "audio" none).1

/-- Scenario continuation: `A` joins the call of `exInitABC`. -/
def exJoinA : ServiceState := (joinCall exInitABC 1 "c" "A" "sa").1

/-- Scenario continuation: `B` joins after `A`. -/
def exJoinB : ServiceState := (joinCall exJoinA 2 "c" "B" "sb").1

/-- Scenario continuation: `A` leaves while `B` is connected and `C` pending. -/
def exLeaveA : ServiceState := (leaveCall exJoinB 3 "c" "A").1

/-- Scenario continuation: `C` joins last, with `A` already disconnected. -/
def exJoinC : ServiceState := (joinCall exLeaveA 4 "c" "C" "sc").1

/-- Scenario: `initiateCall` by `A` with the single participant `B` at time 0. -/
def exInitAB : ServiceState :=
  (initiateCall emptyState 0 "c" "A" ["B"] "audio" none).1

/-- The call object stored by `exInitAB`. -/
def exCallAB : Call :=
  { id := "c"
    initiatorId := "A"
    participants := ["B"]
    type := "audio"
    title := "Call"
    status := CallStatus.initiating
    startTime := 0
    endTime := none
    duration := 0
    recording := none
    messages := []
    connectionStatus := [("B", ConnStatus.pending)] }

/-- Scenario: a recording started on the call of `exInitAB` at time 1. -/
def exRecStarted : ServiceState := (startRecording exInitAB 1 "c").1

/-- The recording attached by `exRecStarted`. -/
def exRec : RecordingSession :=
  { id := "c_1"
    path := "c_1.webm"
    status := RecStatus.recording
    startTime := 1
    endTime := none
    size := 0 }

/-- The call object stored by `exRecStarted`. -/
def exCallRec : Call := { exCallAB with recording := some exRec }

/-- Scenario: two live sessions, `c1` initiated by `A` and `c2` by `X`, both
inviting `B`. -/
def exTwoCalls : ServiceState :=
  (initiateCall (initiateCall emptyState 0 "c1" "A" ["B"] "audio" none).1
    1 "c2" "X" ["B"] "audio" none).1

/-- Scenario continuation: `B` joins `c2`, creating their `userConnections`
entry. -/
def exJoinC2B : ServiceState := (joinCall exTwoCalls 2 "c2" "B" "sb").1

/-- The call object stored for `c1` in `exJoinC2B` (untouched by the join to
`c2`). -/
def exCallC1 : Call :=
  { id := "c1"
    initiatorId := "A"
    participants := ["B"]
    type := "audio"
    title := "Call"
    status := CallStatus.initiating
    startTime := 0
    endTime := none
    duration := 0
    recording := none
    messages := []
    connectionStatus := [("B", ConnStatus.pending)] }

theorem alGet_map_ne {β : Type} (m : List (String × β)) (k x : String) (v : β) (hx : x ≠ k) :
    alGet (m.map (fun p => if p.1 = k then (k, v) else p)) x = alGet m x := by
  induction m with
  | nil => rfl
  | cons p rest ih =>
    rw [List.map_cons]
    by_cases h : p.1 = k
    · rw [if_pos h]
      simp [alGet, h, Ne.symm hx, ih]
    · rw [if_neg h]
      simp [alGet, ih]

theorem alGet_map_eq {β : Type} (m : List (String × β)) (k : String) (v : β)
    (h : alHas m k = true) :
    alGet (m.map (fun p => if p.1 = k then (k, v) else p)) k = some v := by
  induction m with
  | nil => simp [alHas] at h
  | cons p rest ih =>
    rw [List.map_cons]
    by_cases hp : p.1 = k
    · rw [if_pos hp]
      simp [alGet]
    · rw [if_neg hp]
      simp only [alHas, hp, if_false] at h
      simp [alGet, hp, ih h]

theorem alGet_append_single {β : Type} (m : List (String × β)) (k x : String) (v : β) :
    alGet (m ++ [(k, v)]) x =
      match alGet m x with
      | some w => some w
      | none => if k = x then some v else none := by
  induction m with
  | nil => rfl
  | cons p rest ih =>
    simp only [List.cons_append, alGet]
    by_cases hp : p.1 = x
    · simp [hp]
    · simp [hp, ih]

theorem alHas_false_get_none {β : Type} (m : List (String × β)) (k : String)
    (h : alHas m k = false) : alGet m k = none := by
  induction m with
  | nil => rfl
  | cons p rest ih =>
    by_cases hp : p.1 = k
    · simp [alHas, hp] at h
    · simp only [alHas, hp, if_false] at h
      simp [alGet, hp, ih h]

/-- The fundamental lookup/update law for the JS-map model. -/
theorem alGet_alSet {β : Type} (m : List (String × β)) (k x : String) (v : β) :
    alGet (alSet m k v) x = if x = k then some v else alGet m x := by
  unfold alSet
  by_cases h : alHas m k
  · rw [if_pos h]
    by_cases hx : x = k
    · rw [if_pos hx, hx]
      exact alGet_map_eq m k v h
    · rw [if_neg hx, alGet_map_ne m k x v hx]
  · rw [if_neg h, alGet_append_single]
    by_cases hx : x = k
    · have h0 : alGet m k = none := alHas_false_get_none m k (by simpa using h)
      simp [h0, hx]
    · rw [if_neg hx]
      cases halt : alGet m x with
      | some w => rfl
      | none => simp [Ne.symm hx]

theorem alGet_alSet_self {β : Type} (m : List (String × β)) (k : String) (v : β) :
    alGet (alSet m k v) k = some v := by
  rw [alGet_alSet, if_pos rfl]

theorem alGet_alSet_ne {β : Type} (m : List (String × β)) (k x : String) (v : β)
    (hx : x ≠ k) : alGet (alSet m k v) x = alGet m x := by
  rw [alGet_alSet, if_neg hx]

theorem alGet_alErase {β : Type} (m : List (String × β)) (k x : String) :
    alGet (alErase m k) x = if x = k then none else alGet m x := by
  induction m with
  | nil => simp [alErase, alGet]
  | cons p rest ih =>
    by_cases hp : p.1 = k
    · have he : alErase (p :: rest) k = alErase rest k := by
        simp [alErase, List.filter_cons, hp]
      rw [he, ih]
      by_cases hx : x = k
      · simp [hx]
      · have hpx : ¬ p.1 = x := fun h => hx (h ▸ hp)
        simp [alGet, hx, hpx]
    · have he : alErase (p :: rest) k = p :: alErase rest k := by
        simp [alErase, List.filter_cons, hp]
      rw [he]
      by_cases hpx : p.1 = x
      · have hx : ¬ x = k := fun h => hp (by rw [hpx, h])
        simp [alGet, hpx, hx]
      · simp [alGet, hpx, ih]

theorem alGet_foldl_pending (parts : List String) (m0 : List (String × ConnStatus))
    (x : String) :
    alGet (parts.foldl (fun m p => alSet m p ConnStatus.pending) m0) x
      = if x ∈ parts then some ConnStatus.pending else alGet m0 x := by
  induction parts generalizing m0 with
  | nil => simp
  | cons p rest ih =>
    rw [List.foldl_cons, ih]
    by_cases hx : x ∈ rest
    · simp [hx]
    · rw [if_neg hx, alGet_alSet]
      by_cases hxp : x = p
      · simp [hxp]
      · simp [hxp, hx]

theorem alGet_foldl_erase {β : Type} (parts : List String)
    (m0 : List (String × β)) (x : String) :
    alGet (parts.foldl (fun m p => alErase m p) m0) x
      = if x ∈ parts then none else alGet m0 x := by
  induction parts generalizing m0 with
  | nil => simp
  | cons p rest ih =>
    rw [List.foldl_cons, ih]
    by_cases hx : x ∈ rest
    · simp [hx]
    · rw [if_neg hx, alGet_alErase]
      by_cases hxp : x = p
      · simp [hxp]
      · simp [hxp, hx]

/-- The auto-end test of `leaveCall` expressed on the connected-identity list:
`length === 0 || (length === 1 && head === initiatorId)` means the list is
empty or the singleton of the initiator. -/
theorem endCond_iff (conn : List String) (init : String) :
    (conn.length = 0 ∨ (conn.length = 1 ∧ conn.headD "" = init))
      ↔ (conn = [] ∨ conn = [init]) := by
  cases conn with
  | nil => simp
  | cons a t =>
    cases t with
    | nil => simp [List.headD]
    | cons b u => simp

/-- Unfolding of `endCall` on a call that is present in the registry. -/
theorem endCall_found (s : ServiceState) (now : Nat) (callId : String) (call : Call)
    (hc : alGet s.activeCalls callId = some call) :
    endCall s now callId =
      ({ activeCalls := alErase s.activeCalls callId
         userConnections :=
           call.participants.foldl (fun m p => alErase m p) s.userConnections
         history := pushHistory s.history (mkHistoryRecord ({ call with
           status := CallStatus.ended
           endTime := some now
           duration := (now : Int) - (call.startTime : Int) })) },
       Except.ok ({ call with
         status := CallStatus.ended
         endTime := some now
         duration := (now : Int) - (call.startTime : Int) })) := by
  simp only [endCall, hc]

/-- C1 counterexample: in `initiate(audio, initiator=A, participants=[B,C])`
the initiator `A` gets no `connectionStatus` entry at all, contradicting the
claim that every identity in participants ∪ {initiator} is mapped to
`pending`. -/
theorem initiateCall_initiator_entry_absent :
    ((alGet (initiateCall emptyState 0 "c" "A" ["B", "C"] "audio" none).1.activeCalls
        "c").map (fun c => alGet c.connectionStatus "A")) = some none := by
  decide

/-- C1 (amended): every call returned by `initiateCall` has status
`initiating` and a `connectionStatus` mapping exactly the invited
participants to `pending`; the initiator has no entry unless listed among
the participants. -/
theorem initiateCall_connectionStatus (s : ServiceState) (now : Nat)
    (callId initiatorId : String) (participants : List String)
    (callType : String) (title : Option String) :
    ∃ c : Call,
      (initiateCall s now callId initiatorId participants callType title).2
        = Except.ok c ∧
      c.status = CallStatus.initiating ∧
      ∀ x : String, alGet c.connectionStatus x =
        if x ∈ participants then some ConnStatus.pending else none := by
  refine ⟨_, rfl, rfl, ?_⟩
  intro x
  simpa [alGet] using alGet_foldl_pending participants [] x

/-- C8 counterexample: `initiateCall` with an empty participants list and an
unrecognized type succeeds and inserts the session into the registry, so no
`InvalidArgument` rejection happens. -/
theorem initiateCall_accepts_empty_participants :
    exceptOk (initiateCall emptyState 0 "c" "A" [] "bogus" none).2 = true ∧
    (alGet (initiateCall emptyState 0 "c" "A" [] "bogus" none).1.activeCalls
        "c").isSome = true := by
  decide

/-- C8 (amended): `initiateCall` performs no validation at all: for every
participants list (empty included) and every type string it succeeds and
inserts a session with status `initiating` into the registry. -/
theorem initiateCall_no_validation (s : ServiceState) (now : Nat)
    (callId initiatorId : String) (participants : List String)
    (callType : String) (title : Option String) :
    ∃ c : Call,
      (initiateCall s now callId initiatorId participants callType title).2
        = Except.ok c ∧
      alGet (initiateCall s now callId initiatorId participants callType
        title).1.activeCalls callId = some c ∧
      c.status = CallStatus.initiating := by
  exact ⟨_, rfl, alGet_alSet_self _ _ _, rfl⟩

/-- C2 counterexample: after initiate(A,[B,C]); join(A); join(B); leave(A);
join(C), the session transitions to `active` although the initiator's
`connectionStatus` entry is `disconnected` at that moment — so the session
does not become active "exactly when every entry of connectionStatus is
connected", and the third distinct join (not the second, with N = 2
participants) is the activating one. -/
theorem joinCall_activates_with_initiator_disconnected :
    ((alGet exJoinC.activeCalls "c").map
        (fun c => (c.status, alGet c.connectionStatus "A")))
      = some (CallStatus.active, some ConnStatus.disconnected) ∧
    ((alGet exJoinB.activeCalls "c").map (fun c => c.status))
      = some CallStatus.initiating := by
  decide

/-- C2 (amended): `joinCall` by an invited `userId` sets their
`connectionStatus` entry to `connected`, and the returned session is `active`
exactly when it already was, or it was `initiating` and every invited
participant's entry (the initiator's entry is not consulted) is `connected`
after the update; on that transition `startTime` is restamped to `now`. -/
theorem joinCall_activation (s : ServiceState) (now : Nat)
    (callId userId socketId : String) (call : Call)
    (hc : alGet s.activeCalls callId = some call)
    (hinv : userId ∈ call.participants ∨ call.initiatorId = userId) :
    ∃ (c : Call) (n : Nat),
      (joinCall s now callId userId socketId).2 = Except.ok (c, n) ∧
      alGet c.connectionStatus userId = some ConnStatus.connected ∧
      (c.status = CallStatus.active ↔
        (call.status = CallStatus.active ∨
          (call.status = CallStatus.initiating ∧
            ∀ p ∈ call.participants,
              alGet (alSet call.connectionStatus userId ConnStatus.connected) p
                = some ConnStatus.connected))) ∧
      (call.status = CallStatus.initiating → c.status = CallStatus.active →
        c.startTime = now) := by
  have hninv : ¬ (userId ∉ call.participants ∧ call.initiatorId ≠ userId) := by
    rcases hinv with h | h <;> simp [h]
  by_cases hact : (∀ p ∈ call.participants,
      alGet (alSet call.connectionStatus userId ConnStatus.connected) p
        = some ConnStatus.connected) ∧ call.status = CallStatus.initiating
  · refine ⟨{ call with
        connectionStatus := alSet call.connectionStatus userId ConnStatus.connected
        status := CallStatus.active
        startTime := now },
      ((alSet call.connectionStatus userId ConnStatus.connected).filter
        (fun p => p.2 = ConnStatus.connected)).length, ?_, ?_, ?_, ?_⟩
    · simp only [joinCall, hc]
      rw [if_neg hninv, if_pos hact]
    · exact alGet_alSet_self _ _ _
    · constructor
      · intro _
        exact Or.inr ⟨hact.2, hact.1⟩
      · intro _
        rfl
    · intro _ _
      rfl
  · refine ⟨{ call with
        connectionStatus := alSet call.connectionStatus userId ConnStatus.connected },
      ((alSet call.connectionStatus userId ConnStatus.connected).filter
        (fun p => p.2 = ConnStatus.connected)).length, ?_, ?_, ?_, ?_⟩
    · simp only [joinCall, hc]
      rw [if_neg hninv, if_neg hact]
    · exact alGet_alSet_self _ _ _
    · show call.status = CallStatus.active ↔ _
      constructor
      · exact Or.inl
      · rintro (h | ⟨h1, h2⟩)
        · exact h
        · exact absurd ⟨h2, h1⟩ hact
    · intro h1 h2
      have h2' : call.status = CallStatus.active := h2
      rw [h1] at h2'
      exact absurd h2' (by decide)

/-- Witness for `joinCall_activation`: in the session of `exInitAB` the single
participant `B` joins, which activates the call. -/
theorem joinCall_activation_witness :
    ∃ (c : Call) (n : Nat),
      (joinCall exInitAB 1 "c" "B" "sb").2 = Except.ok (c, n) ∧
      alGet c.connectionStatus "B" = some ConnStatus.connected ∧
      (c.status = CallStatus.active ↔
        (exCallAB.status = CallStatus.active ∨
          (exCallAB.status = CallStatus.initiating ∧
            ∀ p ∈ exCallAB.participants,
              alGet (alSet exCallAB.connectionStatus "B" ConnStatus.connected) p
                = some ConnStatus.connected))) ∧
      (exCallAB.status = CallStatus.initiating → c.status = CallStatus.active →
        c.startTime = 1) :=
  joinCall_activation exInitAB 1 "c" "B" "sb" exCallAB (by decide) (by decide)

/-- C3: `leaveCall` marks the leaver `disconnected` and removes the session
from the live registry (by invoking `endCall`) exactly when the
connected-identity list computed from the updated `connectionStatus` is empty
or exactly the singleton of the initiator; in every other case — in
particular when the initiator has left but other participants remain
connected — the session stays live. -/
theorem leaveCall_endCondition (s : ServiceState) (now : Nat)
    (callId userId : String) (call : Call)
    (hc : alGet s.activeCalls callId = some call) :
    alGet (alSet call.connectionStatus userId ConnStatus.disconnected) userId
      = some ConnStatus.disconnected ∧
    (alGet (leaveCall s now callId userId).1.activeCalls callId = none ↔
      (((alSet call.connectionStatus userId ConnStatus.disconnected).filter
          (fun p => p.2 = ConnStatus.connected)).map Prod.fst = [] ∨
       ((alSet call.connectionStatus userId ConnStatus.disconnected).filter
          (fun p => p.2 = ConnStatus.connected)).map Prod.fst
         = [call.initiatorId])) := by
  refine ⟨alGet_alSet_self _ _ _, ?_⟩
  rw [← endCond_iff]
  by_cases hcond :
      (((alSet call.connectionStatus userId ConnStatus.disconnected).filter
        (fun p => p.2 = ConnStatus.connected)).map Prod.fst).length = 0 ∨
      ((((alSet call.connectionStatus userId ConnStatus.disconnected).filter
        (fun p => p.2 = ConnStatus.connected)).map Prod.fst).length = 1 ∧
       (((alSet call.connectionStatus userId ConnStatus.disconnected).filter
        (fun p => p.2 = ConnStatus.connected)).map Prod.fst).headD ""
         = call.initiatorId)
  · have hremoved :
        alGet (leaveCall s now callId userId).1.activeCalls callId = none := by
      simp only [leaveCall, hc]
      rw [if_pos hcond]
      have hc1 : alGet (alSet s.activeCalls callId ({ call with
          connectionStatus :=
            alSet call.connectionStatus userId ConnStatus.disconnected })) callId
          = some ({ call with
            connectionStatus :=
              alSet call.connectionStatus userId ConnStatus.disconnected }) :=
        alGet_alSet_self _ _ _
      simp only [endCall, hc1]
      rw [alGet_alErase]
      simp
    rw [hremoved]
    exact iff_of_true rfl hcond
  · have hkept :
        alGet (leaveCall s now callId userId).1.activeCalls callId
          = some ({ call with
            connectionStatus :=
              alSet call.connectionStatus userId ConnStatus.disconnected }) := by
      simp only [leaveCall, hc]
      rw [if_neg hcond]
      exact alGet_alSet_self _ _ _
    rw [hkept]
    exact iff_of_false (by simp) hcond

/-- Witness for `leaveCall_endCondition`: in the fresh session of `exInitAB`
the participant `B` leaves; nobody is connected afterwards, so the session
auto-ends. -/
theorem leaveCall_endCondition_witness :
    alGet (alSet exCallAB.connectionStatus "B" ConnStatus.disconnected) "B"
      = some ConnStatus.disconnected ∧
    (alGet (leaveCall exInitAB 1 "c" "B").1.activeCalls "c" = none ↔
      (((alSet exCallAB.connectionStatus "B" ConnStatus.disconnected).filter
          (fun p => p.2 = ConnStatus.connected)).map Prod.fst = [] ∨
       ((alSet exCallAB.connectionStatus "B" ConnStatus.disconnected).filter
          (fun p => p.2 = ConnStatus.connected)).map Prod.fst
         = [exCallAB.initiatorId])) :=
  leaveCall_endCondition exInitAB 1 "c" "B" exCallAB (by decide)

/-- C4: ending a live session appends exactly one record to the history and a
second `endCall` is a no-op on both session and history state (the call is
gone from the registry, so it reports "Call not found" and returns the state
unchanged). -/
theorem endCall_idempotent (s : ServiceState) (now1 now2 : Nat)
    (callId : String) (call : Call)
    (hc : alGet s.activeCalls callId = some call)
    (hlen : s.history.length < 100) :
    (endCall s now1 callId).1.history.length = s.history.length + 1 ∧
    endCall (endCall s now1 callId).1 now2 callId
      = ((endCall s now1 callId).1, Except.error "Call not found") := by
  rw [endCall_found s now1 callId call hc]
  constructor
  · show (pushHistory s.history _).length = s.history.length + 1
    unfold pushHistory
    rw [if_neg (by simp; omega)]
    simp
  · have h2 : alGet (alErase s.activeCalls callId) callId = none := by
      rw [alGet_alErase]
      simp
    simp only [endCall, h2]

/-- Witness for `endCall_idempotent` on the concrete session of `exInitAB`. -/
theorem endCall_idempotent_witness :
    (endCall exInitAB 1 "c").1.history.length = exInitAB.history.length + 1 ∧
    endCall (endCall exInitAB 1 "c").1 2 "c"
      = ((endCall exInitAB 1 "c").1, Except.error "Call not found") :=
  endCall_idempotent exInitAB 1 2 "c" exCallAB (by decide) (by decide)

/-- C5 counterexample: start a recording on the session of `exInitAB` and end
the call while the recording is still running: the history record carries the
recording with status still `recording`, so `endCall` does not finalize it as
`completed`. -/
theorem history_record_with_live_recording :
    (endCall exRecStarted 2 "c").1.history.map
        (fun q => q.recording.map RecordingSession.status)
      = [some RecStatus.recording] := by
  decide

/-- C5 (amended): `endCall` copies the session's recording into the history
record unchanged; a session whose recording is still in status `recording`
when `endCall` runs therefore reaches history with that recording still in
status `recording`. -/
theorem endCall_keeps_live_recording (s : ServiceState) (now : Nat)
    (callId : String) (call : Call) (r : RecordingSession)
    (hc : alGet s.activeCalls callId = some call)
    (hr : call.recording = some r) (hrs : r.status = RecStatus.recording)
    (hlen : s.history.length < 100) :
    ∃ q : CallHistoryRecord,
      (endCall s now callId).1.history = s.history ++ [q] ∧
      q.recording = some r ∧ r.status = RecStatus.recording := by
  rw [endCall_found s now callId call hc]
  refine ⟨mkHistoryRecord ({ call with
      status := CallStatus.ended
      endTime := some now
      duration := (now : Int) - (call.startTime : Int) }), ?_, ?_, hrs⟩
  · show pushHistory s.history _ = s.history ++ [_]
    unfold pushHistory
    rw [if_neg (by simp; omega)]
  · show (mkHistoryRecord _).recording = some r
    simpa [mkHistoryRecord] using hr

/-- Witness for `endCall_keeps_live_recording` on the concrete recording
session of `exRecStarted`. -/
theorem endCall_keeps_live_recording_witness :
    ∃ q : CallHistoryRecord,
      (endCall exRecStarted 2 "c").1.history = exRecStarted.history ++ [q] ∧
      q.recording = some exRec ∧ exRec.status = RecStatus.recording :=
  endCall_keeps_live_recording exRecStarted 2 "c" exCallRec exRec
    (by decide) (by decide) (by decide) (by decide)

/-- C6: an external request to end, start recording, or stop recording on a
live session by anyone who is not the initiator is rejected by the socket
handlers with the corresponding permission error, and the service state is
returned unchanged. -/
theorem handler_permission_denied (s : ServiceState) (now : Nat)
    (callId userId : String) (call : Call) (fileSize : Option Nat)
    (hc : alGet s.activeCalls callId = some call)
    (hu : call.initiatorId ≠ userId) :
    handleEndEvent s now callId userId
      = (s, Except.error "Only call initiator can end the call") ∧
    handleStartRecordingEvent s now callId userId
      = (s, Except.error "Only call initiator can start recording") ∧
    handleStopRecordingEvent s now callId userId fileSize
      = (s, Except.error "Only call initiator can stop recording") := by
  refine ⟨?_, ?_, ?_⟩
  · simp only [handleEndEvent, hc]
    rw [if_pos hu]
  · simp only [handleStartRecordingEvent, hc]
    rw [if_pos hu]
  · simp only [handleStopRecordingEvent, hc]
    rw [if_pos hu]

/-- Witness for `handler_permission_denied`: the participant `B` (not the
initiator `A`) is refused all three privileged operations on `exInitAB`. -/
theorem handler_permission_denied_witness :
    handleEndEvent exInitAB 1 "c" "B"
      = (exInitAB, Except.error "Only call initiator can end the call") ∧
    handleStartRecordingEvent exInitAB 1 "c" "B"
      = (exInitAB, Except.error "Only call initiator can start recording") ∧
    handleStopRecordingEvent exInitAB 1 "c" "B" none
      = (exInitAB, Except.error "Only call initiator can stop recording") :=
  handler_permission_denied exInitAB 1 "c" "B" exCallAB none
    (by decide) (by decide)

/-- C7 counterexample: `X` is neither a participant nor the initiator of the
session of `exInitAB`, yet `handleSignaling` succeeds and appends the message
to the signaling log instead of failing `NotInvited`. -/
theorem uninvited_sender_message_appended :
    ("X" ∉ exCallAB.participants ∧ exCallAB.initiatorId ≠ "X" ∧
      alGet exInitAB.activeCalls "c" = some exCallAB) ∧
    exceptOk (handleSignaling exInitAB 1 "c" "offer" "X" "p").2 = true ∧
    ((alGet (handleSignaling exInitAB 1 "c" "offer" "X" "p").1.activeCalls
        "c").map (fun c => c.messages.length)) = some 1 := by
  decide

/-- C7 (amended): `handleSignaling` performs no invitation check: for every
sender, as long as the session exists, the message is appended to the
session's signaling log and the relay instruction targets the named
`targetUserId` when present, else the session's whole room. -/
theorem handleSignaling_no_invite_check (s : ServiceState) (now : Nat)
    (callId sigType userId payload : String) (call : Call)
    (targetUserId : Option String)
    (hc : alGet s.activeCalls callId = some call) :
    handleSignaling s now callId sigType userId payload
      = ({ s with activeCalls := alSet s.activeCalls callId ({ call with
            messages := call.messages ++
              [{ type := sigType, userId := userId, payload := payload,
                 timestamp := now }] }) },
         Except.ok { type := sigType, userId := userId, payload := payload,
                     timestamp := now }) ∧
    (handleSignalEvent s now callId sigType targetUserId payload userId).2
      = some (match targetUserId with
              | some t => RelayTarget.toUser t
              | none => RelayTarget.toRoom callId) := by
  constructor
  · simp only [handleSignaling, hc]
  · simp only [handleSignalEvent, handleSignaling, hc]

/-- Witness for `handleSignaling_no_invite_check`: the uninvited `X` relays a
targeted signal on the session of `exInitAB`. -/
theorem handleSignaling_no_invite_check_witness :
    handleSignaling exInitAB 1 "c" "offer" "X" "p"
      = ({ exInitAB with activeCalls := alSet exInitAB.activeCalls "c" ({ exCallAB with
              messages := exCallAB.messages ++
                [{ type := "offer", userId := "X", payload := "p",
                   timestamp := 1 }] }) },
         Except.ok { type := "offer", userId := "X", payload := "p",
                     timestamp := 1 }) ∧
    (handleSignalEvent exInitAB 1 "c" "offer" (some "B") "p" "X").2
      = some (match some "B" with
              | some t => RelayTarget.toUser t
              | none => RelayTarget.toRoom "c") :=
  handleSignaling_no_invite_check exInitAB 1 "c" "offer" "X" "p" exCallAB
    (some "B") (by decide)

/-- C9 counterexample: creation gives the session of `exInitAB` the key set
{B}; the initiator `A` joining adds the key `A`, so the key set of
`connectionStatus` is not invariant after creation. -/
theorem join_adds_initiator_key :
    ((alGet (joinCall exInitAB 1 "c" "A" "sa").1.activeCalls "c").map
        (fun c => c.connectionStatus.map Prod.fst)) = some ["B", "A"] ∧
    ((alGet exInitAB.activeCalls "c").map
        (fun c => c.connectionStatus.map Prod.fst)) = some ["B"] := by
  decide

/-- C9 (amended): the `connectionStatus` key set is not invariant: `joinCall`
(and likewise `leaveCall`) inserts the acting identity's key when absent —
in particular the initiator's key, which creation never adds — and removes
none, so the updated key set is exactly the old key set plus the acting
identity. -/
theorem connectionStatus_keys_can_grow (s : ServiceState) (now : Nat)
    (callId userId socketId : String) (call : Call)
    (hc : alGet s.activeCalls callId = some call)
    (hinv : userId ∈ call.participants ∨ call.initiatorId = userId) :
    (∀ c n, (joinCall s now callId userId socketId).2 = Except.ok (c, n) →
      ∀ x, (alGet c.connectionStatus x).isSome = true ↔
        (x = userId ∨ (alGet call.connectionStatus x).isSome = true)) ∧
    (∀ c n, (leaveCall s now callId userId).2 = Except.ok (c, n) →
      ∀ x, (alGet c.connectionStatus x).isSome = true ↔
        (x = userId ∨ (alGet call.connectionStatus x).isSome = true)) := by
  have hkey : ∀ (x : String) (v : ConnStatus),
      (alGet (alSet call.connectionStatus userId v) x).isSome = true ↔
        (x = userId ∨ (alGet call.connectionStatus x).isSome = true) := by
    intro x v
    rw [alGet_alSet]
    by_cases hx : x = userId
    · simp [hx]
    · simp [hx]
  have hninv : ¬ (userId ∉ call.participants ∧ call.initiatorId ≠ userId) := by
    rcases hinv with h | h <;> simp [h]
  constructor
  · intro c n h x
    simp only [joinCall, hc] at h
    rw [if_neg hninv] at h
    by_cases hact : (∀ p ∈ call.participants,
        alGet (alSet call.connectionStatus userId ConnStatus.connected) p
          = some ConnStatus.connected) ∧ call.status = CallStatus.initiating
    · rw [if_pos hact] at h
      have hcall : c = { call with
          connectionStatus := alSet call.connectionStatus userId ConnStatus.connected
          status := CallStatus.active
          startTime := now } := ((Prod.ext_iff.mp (Except.ok.inj h)).1).symm
      rw [hcall]
      exact hkey x ConnStatus.connected
    · rw [if_neg hact] at h
      have hcall : c = { call with
          connectionStatus := alSet call.connectionStatus userId ConnStatus.connected } :=
        ((Prod.ext_iff.mp (Except.ok.inj h)).1).symm
      rw [hcall]
      exact hkey x ConnStatus.connected
  · intro c n h x
    simp only [leaveCall, hc] at h
    by_cases hcond :
        (((alSet call.connectionStatus userId ConnStatus.disconnected).filter
          (fun p => p.2 = ConnStatus.connected)).map Prod.fst).length = 0 ∨
        ((((alSet call.connectionStatus userId ConnStatus.disconnected).filter
          (fun p => p.2 = ConnStatus.connected)).map Prod.fst).length = 1 ∧
         (((alSet call.connectionStatus userId ConnStatus.disconnected).filter
          (fun p => p.2 = ConnStatus.connected)).map Prod.fst).headD ""
           = call.initiatorId)
    · rw [if_pos hcond] at h
      have hc1 : alGet (alSet s.activeCalls callId ({ call with
          connectionStatus :=
            alSet call.connectionStatus userId ConnStatus.disconnected })) callId
          = some ({ call with
            connectionStatus :=
              alSet call.connectionStatus userId ConnStatus.disconnected }) :=
        alGet_alSet_self _ _ _
      simp only [endCall, hc1] at h
      have hcall : c = { call with
          connectionStatus := alSet call.connectionStatus userId ConnStatus.disconnected
          status := CallStatus.ended
          endTime := some now
          duration := (now : Int) - (call.startTime : Int) } :=
        ((Prod.ext_iff.mp (Except.ok.inj h)).1).symm
      rw [hcall]
      exact hkey x ConnStatus.disconnected
    · rw [if_neg hcond] at h
      have hcall : c = { call with
          connectionStatus := alSet call.connectionStatus userId ConnStatus.disconnected } :=
        ((Prod.ext_iff.mp (Except.ok.inj h)).1).symm
      rw [hcall]
      exact hkey x ConnStatus.disconnected

/-- Witness for `connectionStatus_keys_can_grow`: the initiator `A` joins the
session of `exInitAB`, whose key set at creation is {B}. -/
theorem connectionStatus_keys_can_grow_witness :
    (∀ c n, (joinCall exInitAB 1 "c" "A" "sa").2 = Except.ok (c, n) →
      ∀ x, (alGet c.connectionStatus x).isSome = true ↔
        (x = "A" ∨ (alGet exCallAB.connectionStatus x).isSome = true)) ∧
    (∀ c n, (leaveCall exInitAB 1 "c" "A").2 = Except.ok (c, n) →
      ∀ x, (alGet c.connectionStatus x).isSome = true ↔
        (x = "A" ∨ (alGet exCallAB.connectionStatus x).isSome = true)) :=
  connectionStatus_keys_can_grow exInitAB 1 "c" "A" "sa" exCallAB
    (by decide) (by decide)

/-- C10: `endCall` deletes the `userConnections` entry of every participant of
the ended session from the single global map — including entries that were
created by joining a different session — while every other session stays in
the registry untouched. -/
theorem endCall_clears_shared_connections (s : ServiceState) (now : Nat)
    (callId : String) (call : Call)
    (hc : alGet s.activeCalls callId = some call) :
    (∀ p ∈ call.participants,
      alGet (endCall s now callId).1.userConnections p = none) ∧
    (∀ cid, cid ≠ callId →
      alGet (endCall s now callId).1.activeCalls cid
        = alGet s.activeCalls cid) := by
  rw [endCall_found s now callId call hc]
  constructor
  · intro p hp
    show alGet (call.participants.foldl (fun m q => alErase m q)
      s.userConnections) p = none
    rw [alGet_foldl_erase]
    simp [hp]
  · intro cid hcid
    show alGet (alErase s.activeCalls callId) cid = _
    rw [alGet_alErase, if_neg hcid]

/-- Witness for `endCall_clears_shared_connections`: `B` joined the live
session `c2`, which created their `userConnections` entry; ending the other
session `c1` (which also invited `B`) deletes that entry while `c2` remains
live in the registry. -/
theorem endCall_clears_shared_connections_witness :
    (alGet exJoinC2B.userConnections "B" = some "sb" ∧
      (alGet (endCall exJoinC2B 3 "c1").1.activeCalls "c2").isSome = true) ∧
    (∀ p ∈ exCallC1.participants,
      alGet (endCall exJoinC2B 3 "c1").1.userConnections p = none) ∧
    (∀ cid, cid ≠ "c1" →
      alGet (endCall exJoinC2B 3 "c1").1.activeCalls cid
        = alGet exJoinC2B.activeCalls cid) :=
  ⟨⟨by decide, by decide⟩,
   endCall_clears_shared_connections exJoinC2B 3 "c1" exCallC1 (by decide)⟩

end WebRTC
